import Mathlib

/-!
Verification development for the request-classification and policy-evaluation
core of a GitHub permission proxy.  The Python sources are embedded shallowly:
pure functions become Lean functions over explicit data, Python exceptions
become `Except`, and the module-level tables become Lean list constants.

The authoritative module is `src/fgp/core/policy.py`; the standalone script
`src/main.py` contains a near-duplicate of the policy engine with slightly
different tables, embedded here under a `main_` name whenever it differs.
Strings are compared exactly as Python does for the ASCII inputs the proxy
handles; `Char.toLower`/`Char.toUpper` model `str.lower`/`str.upper` (the
sources only ever lowercase or uppercase ASCII action, repo and event names).
-/

deriving instance DecidableEq for Except

namespace FGP

/-! ## Python string primitives -/

/-- Model of the Python substring test `needle in hay` on strings. -/
def containsAux (needle : List Char) : List Char → Bool
  | [] => needle.isEmpty
  | c :: t => needle.isPrefixOf (c :: t) || containsAux needle t

/-- Model of Python `needle in hay` for strings. -/
def pyInStr (needle hay : String) : Bool :=
  containsAux needle.data hay.data

/-- Model of Python `s.endswith(suffix)`. -/
def pyEndsWith (s suffix : String) : Bool :=
  suffix.data.isSuffixOf s.data

/-- Model of Python `s.lower()` (ASCII; the proxy only lowercases ASCII). -/
def pyLower (s : String) : String :=
  String.mk (s.data.map Char.toLower)

/-- Model of Python `s.upper()` (ASCII; the proxy only uppercases ASCII). -/
def pyUpper (s : String) : String :=
  String.mk (s.data.map Char.toUpper)

/-- Model of Python `s.replace(needle, repl)`: left-to-right, non-overlapping.
The sources only call it with the non-empty needle `"_PARAM_BRANCH"`. -/
def replaceAux (needle repl : List Char) : List Char → List Char
  | [] => []
  | c :: t =>
    if h : needle ≠ [] ∧ needle.isPrefixOf (c :: t) then
      repl ++ replaceAux needle repl ((c :: t).drop needle.length)
    else
      c :: replaceAux needle repl t
termination_by l => l.length
decreasing_by
  · simp only [List.length_drop, List.length_cons]
    have : needle.length ≥ 1 := List.length_pos.mpr h.1
    omega
  · simp only [List.length_cons]
    omega

/-- Model of Python `s.replace(needle, repl)` on strings. -/
def pyReplace (s needle repl : String) : String :=
  String.mk (replaceAux needle.data repl.data s.data)

/-! ## JSON values and Python dict access

The refiner inspects the request body only through the outcome of
`json.loads(body.decode("utf-8"))`.  `Json` models the possible parse results
(numbers are modelled as integers; the refiner only ever tests them for
zero-ness via truthiness, never for a fractional value).  `Json.null` equally
models the Python `None` used as a `dict.get` default. -/

inductive Json where
  | null : Json
  | bool (b : Bool) : Json
  | num (n : Int) : Json
  | str (s : String) : Json
  | arr (elems : List Json) : Json
  | obj (fields : List (String × Json)) : Json

/-- Python exceptions that the embedded code can raise. -/
inductive PyError where
  | attributeError : PyError
deriving DecidableEq

/-- Model of Python `v.get(key, default)`.  Only `dict` has `.get`; on any
other value (list, str, int, bool, None) Python raises `AttributeError`.
A `dict` built by `json.loads` keeps the last binding for a repeated key,
hence the lookup on the reversed field list. -/
def pyGet (v : Json) (key : String) (default : Json) : Except PyError Json :=
  match v with
  | .obj kvs => .ok ((kvs.reverse.lookup key).getD default)
  | _ => .error .attributeError

/-- Model of Python `v.upper()` applied to a JSON value: only `str` has
`.upper`; any other value raises `AttributeError`. -/
def pyUpperJson (v : Json) : Except PyError String :=
  match v with
  | .str s => .ok (pyUpper s)
  | _ => .error .attributeError

/-- Python truthiness of a JSON value (`if v:`). -/
def truthy : Json → Bool
  | .null => false
  | .bool b => b
  | .num n => n != 0
  | .str s => s ≠ ""
  | .arr l => !l.isEmpty
  | .obj l => !l.isEmpty

/-- Model of Python `v == "s"` for a JSON value against a string literal:
true exactly when `v` is that string. -/
def pyEqStr (v : Json) (s : String) : Bool :=
  match v with
  | .str t => t = s
  | _ => false

/-- Model of Python `v is True`. -/
def pyIsTrue : Json → Bool
  | .bool true => true
  | _ => false

/-- Model of Python `v is False`. -/
def pyIsFalse : Json → Bool
  | .bool false => true
  | _ => false

/-- Outcome of the body-parsing prelude of `resolve_param_branch`:
`absent` covers `body` being `None` or empty bytes (the `if body:` guard),
`failed` covers `JSONDecodeError`/`UnicodeDecodeError`, and `ok v` a
successful parse producing the JSON value `v`. -/
inductive BodyParse where
  | absent : BodyParse
  | failed : BodyParse
  | ok (v : Json) : BodyParse

/-- Value of the Python local `body_json` after the parsing prelude:
it stays the empty dict unless the body parsed successfully. -/
def bodyJson : BodyParse → Json
  | .absent => .obj []
  | .failed => .obj []
  | .ok v => v

/-! ## Parameter refinement (`resolve_param_branch`, `src/fgp/core/policy.py`
lines 354-412; `src/main.py` lines 370-443 is textually identical) -/

/-- Shallow embedding of `resolve_param_branch(action, body)`.  The body is
given as its parse outcome (see `BodyParse`); Python exceptions raised by
attribute access on non-dict JSON values surface as `Except.error`. -/
def resolve_param_branch (action : String) (body : BodyParse) : Except PyError String :=
  if !pyInStr "_PARAM_BRANCH" action then
    .ok action
  else
    let body_json := bodyJson body
    if action = "pr:create_PARAM_BRANCH" then do
      let draft ← pyGet body_json "draft" (.bool false)
      if truthy draft then
        return "pr:create_draft"
      return "pr:create"
    else if action = "pr:update_PARAM_BRANCH" then do
      let state ← pyGet body_json "state" .null
      let draft ← pyGet body_json "draft" .null
      if pyEqStr state "closed" then
        return "pr:close"
      if pyEqStr state "open" then
        return "pr:reopen"
      if pyIsTrue draft then
        return "pr:convert_to_draft"
      if pyIsFalse draft then
        return "pr:mark_ready"
      return "pr:update"
    else if action = "pr:merge_PARAM_BRANCH" then do
      let merge_method ← pyGet body_json "merge_method" (.str "merge")
      if pyEqStr merge_method "squash" then
        return "pr:merge_squash"
      if pyEqStr merge_method "rebase" then
        return "pr:merge_rebase"
      return "pr:merge_commit"
    else if action = "pr:review_PARAM_BRANCH" then do
      let ev ← pyGet body_json "event" (.str "")
      let event ← pyUpperJson ev
      if event = "APPROVE" then
        return "pr:approve"
      if event = "REQUEST_CHANGES" then
        return "pr:request_changes"
      if event = "COMMENT" then
        return "pr:review_comment_only"
      return "pr:review_pending"
    else if action = "pr:review_submit_PARAM_BRANCH" then do
      let ev ← pyGet body_json "event" (.str "")
      let event ← pyUpperJson ev
      if event = "APPROVE" then
        return "pr:review_submit_approve"
      if event = "REQUEST_CHANGES" then
        return "pr:review_submit_request_changes"
      return "pr:review_submit_comment"
    else
      .ok (pyReplace action "_PARAM_BRANCH" "")

/-! ## Shell-style glob matching (Python `fnmatch`)

The repo-pattern fallback in `expand_repo_pattern` calls
`fnmatch.fnmatch(repo_lower, pattern_lower)`; on a POSIX host this is
`fnmatch.fnmatchcase`.  `globMatch` models its semantics for the glob
language: `*` matches any sequence, `?` any single character, `[...]` a
character set (leading `!` negates; a `]` directly after `[` or `[!` is a
literal member; `a-b` is an inclusive range, empty when `a > b`); an
unterminated `[` is a literal. -/

/-- Member of a glob character class: a single character or a range. -/
inductive ClsItem where
  | single (c : Char) : ClsItem
  | range (a b : Char) : ClsItem
deriving DecidableEq

/-- Whether a character belongs to one class item. -/
def clsItemMatch (c : Char) : ClsItem → Bool
  | .single a => c = a
  | .range a b => a ≤ c && c ≤ b

/-- Parse the body of a character class into items, pairing `a-b` as a range
and keeping a trailing `-` literal. -/
def parseItems : List Char → List ClsItem
  | [] => []
  | a :: '-' :: b :: rest => .range a b :: parseItems rest
  | a :: rest => .single a :: parseItems rest

/-- Scan for the closing bracket of a character class, given the literal
lead members already consumed and the text after them; returns the parsed
items and what follows the closing bracket. -/
def globClsSplitCore (lead p2 : List Char) : Option (List ClsItem × List Char) :=
  match p2.findIdx? (· = ']') with
  | none => none
  | some j => some (parseItems (lead ++ p2.take j), p2.drop (j + 1))

/-- Split the text following a `[` into (negation flag, class items, rest of
the pattern after the closing bracket); `none` when the class is
unterminated.  Mirrors the bracket scan of `fnmatch.translate`: an optional
leading `!` negates, and a `]` directly after it is a literal member. -/
def globClsSplit : List Char → Option (Bool × List ClsItem × List Char)
  | '!' :: ']' :: r => (globClsSplitCore [']'] r).map (fun pr => (true, pr.1, pr.2))
  | '!' :: r => (globClsSplitCore [] r).map (fun pr => (true, pr.1, pr.2))
  | ']' :: r => (globClsSplitCore [']'] r).map (fun pr => (false, pr.1, pr.2))
  | r => (globClsSplitCore [] r).map (fun pr => (false, pr.1, pr.2))

/-- Fuelled matcher behind `globMatch`.  Every recursive call consumes one
unit of fuel and strictly shrinks the combined length of pattern and text
(the class split never lengthens the pattern), so with the fuel chosen in
`globMatch` the `0` case is never reached; the fuel only makes the
recursion structural. -/
def globMatchF : Nat → List Char → List Char → Bool
  | 0, _, _ => false
  | _ + 1, [], s => s.isEmpty
  | fuel + 1, '*' :: p, s =>
    globMatchF fuel p s ||
      (match s with
       | [] => false
       | _ :: t => globMatchF fuel ('*' :: p) t)
  | fuel + 1, '?' :: p, s =>
    (match s with
     | [] => false
     | _ :: t => globMatchF fuel p t)
  | fuel + 1, '[' :: p, s =>
    (match globClsSplit p with
     | some (neg, items, rest) =>
       (match s with
        | [] => false
        | c :: t => ((items.any (clsItemMatch c)) != neg) && globMatchF fuel rest t)
     | none =>
       (match s with
        | [] => false
        | c :: t => (c = '[') && globMatchF fuel p t))
  | fuel + 1, c :: p, s =>
    (match s with
     | [] => false
     | x :: t => (x = c) && globMatchF fuel p t)

/-- Model of `fnmatch.fnmatchcase(s, pattern)` (arguments here pattern
first). -/
def globMatch (p s : List Char) : Bool :=
  globMatchF (p.length + s.length + 1) p s

/-! ## Repo pattern matching (`expand_repo_pattern`,
`src/fgp/core/policy.py` lines 282-300; `src/main.py` lines 293-311 is
textually identical) -/

/-- Shallow embedding of `expand_repo_pattern(pattern, repo)`.  The slice
`pattern[:-2]` is modelled as dropping the last two characters and
`repo.split("/")[0]` as the prefix before the first `/` (the whole string
when there is none), which is what indexing the split at 0 yields. -/
def expand_repo_pattern (pattern repo : String) : Bool :=
  let pattern_lower := (pyLower pattern).data
  let repo_lower := (pyLower repo).data
  if pattern_lower = "*".data then true
  else if "/*".data.isSuffixOf pattern_lower then
    let owner_pattern := pattern_lower.take (pattern_lower.length - 2)
    let repo_owner := repo_lower.takeWhile (· ≠ '/')
    owner_pattern = repo_owner
  else
    globMatch pattern_lower repo_lower

/-! ## Action vocabulary (`src/fgp/core/policy.py` lines 131-249) -/

/-- `PR_LAYER1_ACTIONS` (identical in both source files). -/
def PR_LAYER1_ACTIONS : List String := [
  "pr:list", "pr:get", "pr:create", "pr:create_draft", "pr:update",
  "pr:close", "pr:reopen", "pr:convert_to_draft", "pr:mark_ready",
  "pr:commits", "pr:files", "pr:merge_status",
  "pr:merge_commit", "pr:merge_squash", "pr:merge_rebase",
  "pr:update_branch",
  "pr:comment_list_all", "pr:comment_list", "pr:comment_get",
  "pr:comment_create", "pr:comment_update", "pr:comment_delete",
  "pr:review_comment_list_all", "pr:review_comment_list", "pr:review_comment_get",
  "pr:review_comment_create", "pr:review_comment_update", "pr:review_comment_delete",
  "pr:review_comment_reply",
  "pr:review_list", "pr:review_get", "pr:review_pending",
  "pr:approve", "pr:request_changes", "pr:review_comment_only",
  "pr:review_update", "pr:review_delete", "pr:review_comments",
  "pr:review_dismiss",
  "pr:review_submit_approve", "pr:review_submit_request_changes", "pr:review_submit_comment",
  "pr:reviewer_list", "pr:reviewer_request", "pr:reviewer_remove"]

/-- `PULL_REQUESTS_READ_ACTIONS` (identical in both source files). -/
def PULL_REQUESTS_READ_ACTIONS : List String := [
  "pr:list", "pr:get", "pr:commits", "pr:files", "pr:merge_status",
  "pr:reviewer_list", "pr:review_list", "pr:review_get", "pr:review_comments",
  "pr:review_comment_list_all", "pr:review_comment_list", "pr:review_comment_get",
  "pr:comment_list_all", "pr:comment_list", "pr:comment_get"]

/-- `PULL_REQUESTS_WRITE_ONLY_ACTIONS` (identical in both source files). -/
def PULL_REQUESTS_WRITE_ONLY_ACTIONS : List String := [
  "pr:create", "pr:create_draft", "pr:update", "pr:close", "pr:reopen",
  "pr:convert_to_draft", "pr:mark_ready", "pr:update_branch",
  "pr:reviewer_request", "pr:reviewer_remove",
  "pr:review_pending", "pr:approve", "pr:request_changes", "pr:review_comment_only",
  "pr:review_update", "pr:review_delete", "pr:review_dismiss",
  "pr:review_submit_approve", "pr:review_submit_request_changes", "pr:review_submit_comment",
  "pr:review_comment_create", "pr:review_comment_update", "pr:review_comment_delete",
  "pr:review_comment_reply",
  "pr:comment_create", "pr:comment_update", "pr:comment_delete"]

/-- `PULLS_CONTRIBUTE_ONLY_ACTIONS` (identical in both source files). -/
def PULLS_CONTRIBUTE_ONLY_ACTIONS : List String := [
  "pr:create", "pr:create_draft", "pr:update",
  "pr:convert_to_draft", "pr:mark_ready",
  "pr:comment_create", "pr:comment_update",
  "pr:review_comment_create", "pr:review_comment_update", "pr:review_comment_reply",
  "pr:review_pending", "pr:approve", "pr:request_changes", "pr:review_comment_only",
  "pr:review_update",
  "pr:review_submit_approve", "pr:review_submit_request_changes", "pr:review_submit_comment",
  "pr:reviewer_request"]

/-- `BUNDLE_EXPANSION` of `src/fgp/core/policy.py` (the Python dict is
modelled as an association list in key-insertion order). -/
def BUNDLE_EXPANSION : List (String × List String) := [
  ("pull-requests:read", PULL_REQUESTS_READ_ACTIONS),
  ("pull-requests:write", PULL_REQUESTS_READ_ACTIONS ++ PULL_REQUESTS_WRITE_ONLY_ACTIONS),
  ("pulls:contribute", PULL_REQUESTS_READ_ACTIONS ++ PULLS_CONTRIBUTE_ONLY_ACTIONS),
  ("pr:merge", ["pr:merge_commit", "pr:merge_squash", "pr:merge_rebase"])]

/-- `DISCUSSION_LAYER1_ACTIONS` of `src/fgp/core/policy.py`. -/
def DISCUSSION_LAYER1_ACTIONS : List String := [
  "discussions:list",
  "discussions:get",
  "discussions:create",
  "discussions:update",
  "discussions:close",
  "discussions:reopen",
  "discussions:delete",
  "discussions:comment_list",
  "discussions:comment_add",
  "discussions:comment_edit",
  "discussions:comment_delete",
  "discussions:answer",
  "discussions:unanswer",
  "discussions:poll_vote"]

/-- `ALL_ACTIONS` of `src/fgp/core/policy.py` (the wildcard universe). -/
def ALL_ACTIONS : List String := [
  "metadata:read",
  "actions:read",
  "statuses:read",
  "code:read", "code:write",
  "issues:read", "issues:write",
  "git:read", "git:write",
  "subissues:list", "subissues:parent", "subissues:add", "subissues:remove", "subissues:reprioritize",
  "pr:read", "pr:create", "pr:write", "pr:merge", "pr:comment", "pr:review"]
  ++ PR_LAYER1_ACTIONS ++ DISCUSSION_LAYER1_ACTIONS

/-- `ACTION_CATEGORIES` of `src/fgp/core/policy.py`. -/
def ACTION_CATEGORIES : List (String × List String) := [
  ("metadata", ["metadata:read"]),
  ("actions", ["actions:read"]),
  ("statuses", ["statuses:read"]),
  ("code", ["code:read", "code:write"]),
  ("issues", ["issues:read", "issues:write"]),
  ("pr", ["pr:read", "pr:create", "pr:write", "pr:merge", "pr:comment", "pr:review"] ++ PR_LAYER1_ACTIONS),
  ("git", ["git:read", "git:write"]),
  ("discussions", DISCUSSION_LAYER1_ACTIONS),
  ("subissues", ["subissues:list", "subissues:parent", "subissues:add", "subissues:remove", "subissues:reprioritize"])]

/-- `BUNDLE_EXPANSION` of `src/main.py` (no `pr:merge` bundle). -/
def main_BUNDLE_EXPANSION : List (String × List String) := [
  ("pull-requests:read", PULL_REQUESTS_READ_ACTIONS),
  ("pull-requests:write", PULL_REQUESTS_READ_ACTIONS ++ PULL_REQUESTS_WRITE_ONLY_ACTIONS),
  ("pulls:contribute", PULL_REQUESTS_READ_ACTIONS ++ PULLS_CONTRIBUTE_ONLY_ACTIONS)]

/-- `ALL_ACTIONS` of `src/main.py`. -/
def main_ALL_ACTIONS : List String := [
  "metadata:read",
  "actions:read",
  "statuses:read",
  "code:read", "code:write",
  "issues:read", "issues:write",
  "git:read", "git:write",
  "discussions:write",
  "subissues:add", "subissues:remove", "subissues:reprioritize"]
  ++ PR_LAYER1_ACTIONS

/-- `ACTION_CATEGORIES` of `src/main.py`. -/
def main_ACTION_CATEGORIES : List (String × List String) := [
  ("metadata", ["metadata:read"]),
  ("actions", ["actions:read"]),
  ("statuses", ["statuses:read"]),
  ("code", ["code:read", "code:write"]),
  ("issues", ["issues:read", "issues:write"]),
  ("pr", PR_LAYER1_ACTIONS),
  ("git", ["git:read", "git:write"]),
  ("discussions", ["discussions:write"]),
  ("subissues", ["subissues:add", "subissues:remove", "subissues:reprioritize"])]

/-! ## Action pattern expansion (`expand_action_pattern`,
`src/fgp/core/policy.py` lines 256-279; `src/main.py` lines 263-290 is the
same algorithm over the `main_` tables) -/

/-- Core of `expand_action_pattern`, parameterised by the three module-level
tables it reads. -/
def expandActionPatternWith (allActions : List String)
    (bundles categories : List (String × List String)) (pattern : String) :
    List String :=
  if pattern = "*" then allActions
  else
    match bundles.lookup pattern with
    | some expansion => expansion
    | none =>
      if pyEndsWith pattern ":*" then
        (categories.lookup (String.mk (pattern.data.take (pattern.data.length - 2)))).getD []
      else if allActions.contains pattern then [pattern]
      else []

/-- `expand_action_pattern` of `src/fgp/core/policy.py`. -/
def expand_action_pattern (pattern : String) : List String :=
  expandActionPatternWith ALL_ACTIONS BUNDLE_EXPANSION ACTION_CATEGORIES pattern

/-- `expand_action_pattern` of `src/main.py`. -/
def main_expand_action_pattern (pattern : String) : List String :=
  expandActionPatternWith main_ALL_ACTIONS main_BUNDLE_EXPANSION main_ACTION_CATEGORIES pattern

/-! ## Policy evaluation (`evaluate_policy`, `src/fgp/core/policy.py`
lines 303-347; `src/main.py` lines 314-363 is the same algorithm over the
`main_` tables) -/

/-- One policy rule.  The config loader rejects configs in which any of the
three fields is missing, so the rule is modelled as a record (the `.get`
defaults in `evaluate_policy` are unreachable for loaded configs). -/
structure Rule where
  effect : String
  actions : List String
  repos : List String
deriving DecidableEq

/-- Python `repr` of a quote-free string (single-quoted). -/
def strRepr (s : String) : String := "\x27" ++ s ++ "\x27"

/-- Python `repr` of a list of quote-free strings. -/
def listRepr (xs : List String) : String :=
  "[" ++ String.intercalate ", " (xs.map strRepr) ++ "]"

/-- The text `f"{rule}"` interpolates into the deny reason: the Python dict
repr for a rule whose keys were inserted in the order effect, actions, repos
and whose strings contain no quote characters. -/
def ruleRepr (r : Rule) : String :=
  "\x7b\x27effect\x27: " ++ strRepr r.effect ++ ", \x27actions\x27: " ++
    listRepr r.actions ++ ", \x27repos\x27: " ++ listRepr r.repos ++ "\x7d"

/-- The inner action loop of `evaluate_policy`: some action pattern of the
rule expands to a list containing the action. -/
def ruleActionMatch (expand : String → List String) (action : String) (r : Rule) : Bool :=
  r.actions.any (fun p => (expand p).contains action)

/-- The inner repo loop of `evaluate_policy`: some repo pattern of the rule
matches the repo. -/
def ruleRepoMatch (repo : String) (r : Rule) : Bool :=
  r.repos.any (fun p => expand_repo_pattern p repo)

/-- The rule loop of `evaluate_policy` with the running `has_allow` flag,
parameterised by the action-pattern expansion table. -/
def evaluateAux (expand : String → List String) (action repo : String) :
    List Rule → Bool → Bool × String
  | [], has_allow =>
    if has_allow then (true, "Allowed")
    else (false, "No matching allow rule for " ++ action ++ " on " ++ repo)
  | r :: rest, has_allow =>
    let effect := pyLower r.effect
    if !ruleActionMatch expand action r then
      evaluateAux expand action repo rest has_allow
    else if !ruleRepoMatch repo r then
      evaluateAux expand action repo rest has_allow
    else if effect = "deny" then
      (false, "Denied by rule: " ++ ruleRepr r)
    else if effect = "allow" then
      evaluateAux expand action repo rest true
    else
      evaluateAux expand action repo rest has_allow

/-- Shallow embedding of `evaluate_policy(action, repo, rules)` of
`src/fgp/core/policy.py`. -/
def evaluate_policy (action repo : String) (rules : List Rule) : Bool × String :=
  evaluateAux expand_action_pattern action repo rules false

/-- Shallow embedding of `evaluate_policy(action, repo, rules)` of
`src/main.py`. -/
def main_evaluate_policy (action repo : String) (rules : List Rule) : Bool × String :=
  evaluateAux main_expand_action_pattern action repo rules false

/-! ## Credential selection (`select_pat`, `src/fgp/core/policy.py`
lines 450-456) and the loaded config -/

/-- One legacy fine-grained credential entry (`fine_grained_pats`); the
loader guarantees both fields are present. -/
structure FgPat where
  pat : String
  repos : List String
deriving DecidableEq

/-- One modern credential entry (`pats`). -/
structure PatEntry where
  token : String
  repos : List String
deriving DecidableEq

/-- The loaded configuration, restricted to the keys the embedded code
reads.  `classic_pat` and `rules` are required by the loader;
`fine_grained_pats` defaults to the empty list; the modern `pats` key is
optional and is read only by `handle_auth_status`. -/
structure Config where
  classic_pat : String
  fine_grained_pats : List FgPat
  pats : Option (List PatEntry)
  rules : List Rule
deriving DecidableEq

/-- The entry loop of `select_pat`. -/
def selectPatAux (repo classic : String) : List FgPat → String
  | [] => classic
  | e :: rest =>
    if e.repos.any (fun p => expand_repo_pattern p repo) then e.pat
    else selectPatAux repo classic rest

/-- Shallow embedding of `select_pat(repo, config)` of
`src/fgp/core/policy.py`.  It reads only `fine_grained_pats` and
`classic_pat` from the config. -/
def select_pat (repo : String) (config : Config) : String :=
  selectPatAux repo config.classic_pat config.fine_grained_pats

/-! ## Anchored regular expressions of the endpoint tables

Every pattern in the endpoint tables is an anchored concatenation of
literal text and named capture groups of three kinds: `(?P<n>[^/]+)`,
`(?P<n>\d+)` and `(?P<n>.*)` / `(?P<n>.+)`.  `rmatch` implements leftmost
greedy matching with backtracking over exactly this language, which agrees
with `re.match(pattern, path)` plus `match.groupdict()` on it (`$` is taken
as end of string; HTTP request paths contain no newline, and `\d` is taken
as an ASCII digit as all paths the table can match are ASCII). -/

/-- Character classes occurring in the endpoint patterns. -/
inductive CharCls where
  | notSlash : CharCls
  | digit : CharCls
  | anyCh : CharCls
deriving DecidableEq

/-- Membership in a character class: `[^/]`, `\d`, or `.` (which in Python
does not match a newline). -/
def clsMatch : CharCls → Char → Bool
  | .notSlash, c => c ≠ '/'
  | .digit, c => c.isDigit
  | .anyCh, c => c ≠ '\n'

/-- One token of a pattern: a literal character, or a named capture group
over a character class (`needOne` distinguishes `+` from `*`). -/
inductive RTok where
  | lit (c : Char) : RTok
  | grp (name : String) (cls : CharCls) (needOne : Bool) : RTok
deriving DecidableEq

/-- Literal pattern text. -/
def lits (s : String) : List RTok := s.data.map RTok.lit

/-- Pattern fragment `(?P<name>[^/]+)`. -/
def seg (name : String) : List RTok := [RTok.grp name .notSlash true]

/-- Pattern fragment `(?P<name>\d+)`. -/
def numSeg (name : String) : List RTok := [RTok.grp name .digit true]

/-- Pattern fragment `(?P<name>.*)`. -/
def restStar (name : String) : List RTok := [RTok.grp name .anyCh false]

/-- Pattern fragment `(?P<name>.+)`. -/
def restPlus (name : String) : List RTok := [RTok.grp name .anyCh true]

/-- All splits of `xs` into a prefix inside the class and the remaining
suffix, longest prefix first — the order in which a greedy group tries
them. -/
def splitsDesc (cls : CharCls) (xs : List Char) : List (List Char × List Char) :=
  let maxLen := (xs.takeWhile (clsMatch cls)).length
  ((List.range (maxLen + 1)).reverse).map (fun k => (xs.take k, xs.drop k))

/-- Backtracking matcher; `fuel` is an upper bound on the token-list length
that makes the recursion structural (so that concrete matches evaluate in
the kernel).  With `fuel = ts.length` (see `rmatch`) the fuel never runs
out. -/
def rmatchF : Nat → List RTok → List Char → Option (List (String × String))
  | _, [], xs => if xs.isEmpty then some [] else none
  | 0, _ :: _, _ => none
  | fuel + 1, .lit c :: ts, xs =>
    match xs with
    | [] => none
    | x :: xs2 => if x = c then rmatchF fuel ts xs2 else none
  | fuel + 1, .grp name cls needOne :: ts, xs =>
    (splitsDesc cls xs).findSome? (fun pr =>
      if needOne && pr.1.isEmpty then none
      else (rmatchF fuel ts pr.2).map (fun caps => (name, String.mk pr.1) :: caps))

/-- Anchored match of a token pattern against a path, returning the named
captures in group order on success (the model of `re.match` plus
`groupdict`). -/
def rmatch (ts : List RTok) (xs : List Char) : Option (List (String × String)) :=
  rmatchF ts.length ts xs

/-! ## Endpoint tables (`ENDPOINT_ACTIONS` and `GIT_ENDPOINT_ACTIONS`,
`src/fgp/core/policy.py` lines 22-121; the `src/main.py` tables at lines
44-154 list the same entries in the same order) -/

/-- One `(method, pattern, action)` row of an endpoint table. -/
structure EndpointEntry where
  method : String
  pattern : List RTok
  action : String
deriving DecidableEq

/-- Common prefix `/repos/(?P<owner>[^/]+)/(?P<repo>[^/]+)` of the REST
patterns. -/
def repoPath (suffix : List RTok) : List RTok :=
  lits "/repos/" ++ seg "owner" ++ lits "/" ++ seg "repo" ++ suffix

/-- The ordered REST endpoint table. -/
def ENDPOINT_ACTIONS : List EndpointEntry := [
  -- metadata:read
  ⟨"GET", repoPath [], "metadata:read"⟩,
  ⟨"GET", repoPath (lits "/branches"), "metadata:read"⟩,
  ⟨"GET", repoPath (lits "/branches/" ++ seg "branch"), "metadata:read"⟩,
  ⟨"GET", repoPath (lits "/contributors"), "metadata:read"⟩,
  ⟨"GET", repoPath (lits "/languages"), "metadata:read"⟩,
  ⟨"GET", repoPath (lits "/tags"), "metadata:read"⟩,
  ⟨"GET", repoPath (lits "/topics"), "metadata:read"⟩,
  -- actions:read
  ⟨"GET", repoPath (lits "/actions/runs"), "actions:read"⟩,
  ⟨"GET", repoPath (lits "/actions/runs/" ++ numSeg "run_id"), "actions:read"⟩,
  ⟨"GET", repoPath (lits "/actions/runs/" ++ numSeg "run_id" ++ lits "/jobs"), "actions:read"⟩,
  ⟨"GET", repoPath (lits "/actions/workflows"), "actions:read"⟩,
  -- statuses:read
  ⟨"GET", repoPath (lits "/commits/" ++ seg "ref" ++ lits "/status"), "statuses:read"⟩,
  ⟨"GET", repoPath (lits "/commits/" ++ seg "ref" ++ lits "/statuses"), "statuses:read"⟩,
  ⟨"GET", repoPath (lits "/commits/" ++ seg "ref" ++ lits "/check-runs"), "statuses:read"⟩,
  ⟨"GET", repoPath (lits "/commits/" ++ seg "ref" ++ lits "/check-suites"), "statuses:read"⟩,
  -- code:read
  ⟨"GET", repoPath (lits "/contents/" ++ restStar "path"), "code:read"⟩,
  ⟨"GET", repoPath (lits "/git/refs"), "code:read"⟩,
  ⟨"GET", repoPath (lits "/git/refs/" ++ restPlus "ref"), "code:read"⟩,
  ⟨"GET", repoPath (lits "/git/commits/" ++ seg "sha"), "code:read"⟩,
  ⟨"GET", repoPath (lits "/git/trees/" ++ seg "sha"), "code:read"⟩,
  ⟨"GET", repoPath (lits "/git/blobs/" ++ seg "sha"), "code:read"⟩,
  ⟨"GET", repoPath (lits "/compare/" ++ restPlus "basehead"), "code:read"⟩,
  -- code:write
  ⟨"PUT", repoPath (lits "/contents/" ++ restStar "path"), "code:write"⟩,
  ⟨"DELETE", repoPath (lits "/contents/" ++ restStar "path"), "code:write"⟩,
  ⟨"POST", repoPath (lits "/git/refs"), "code:write"⟩,
  ⟨"PATCH", repoPath (lits "/git/refs/" ++ restPlus "ref"), "code:write"⟩,
  -- issues:read
  ⟨"GET", repoPath (lits "/issues"), "issues:read"⟩,
  ⟨"GET", repoPath (lits "/issues/" ++ numSeg "issue_number"), "issues:read"⟩,
  ⟨"GET", repoPath (lits "/issues/" ++ numSeg "issue_number" ++ lits "/comments"), "issues:read"⟩,
  ⟨"GET", repoPath (lits "/issues/" ++ numSeg "issue_number" ++ lits "/labels"), "issues:read"⟩,
  -- issues:write
  ⟨"POST", repoPath (lits "/issues"), "issues:write"⟩,
  ⟨"PATCH", repoPath (lits "/issues/" ++ numSeg "issue_number"), "issues:write"⟩,
  ⟨"POST", repoPath (lits "/issues/" ++ numSeg "issue_number" ++ lits "/comments"), "issues:write"⟩,
  ⟨"PATCH", repoPath (lits "/issues/comments/" ++ numSeg "comment_id"), "issues:write"⟩,
  ⟨"POST", repoPath (lits "/issues/" ++ numSeg "issue_number" ++ lits "/labels"), "issues:write"⟩,
  ⟨"DELETE", repoPath (lits "/issues/" ++ numSeg "issue_number" ++ lits "/labels/" ++ seg "label"), "issues:write"⟩,
  -- PR layer-1 actions
  ⟨"GET", repoPath (lits "/pulls"), "pr:list"⟩,
  ⟨"GET", repoPath (lits "/pulls/" ++ numSeg "pull_number"), "pr:get"⟩,
  ⟨"GET", repoPath (lits "/pulls/" ++ numSeg "pull_number" ++ lits "/commits"), "pr:commits"⟩,
  ⟨"GET", repoPath (lits "/pulls/" ++ numSeg "pull_number" ++ lits "/files"), "pr:files"⟩,
  ⟨"GET", repoPath (lits "/pulls/" ++ numSeg "pull_number" ++ lits "/merge"), "pr:merge_status"⟩,
  ⟨"POST", repoPath (lits "/pulls"), "pr:create_PARAM_BRANCH"⟩,
  ⟨"PATCH", repoPath (lits "/pulls/" ++ numSeg "pull_number"), "pr:update_PARAM_BRANCH"⟩,
  ⟨"PUT", repoPath (lits "/pulls/" ++ numSeg "pull_number" ++ lits "/update-branch"), "pr:update_branch"⟩,
  ⟨"PUT", repoPath (lits "/pulls/" ++ numSeg "pull_number" ++ lits "/merge"), "pr:merge_PARAM_BRANCH"⟩,
  -- general comments (issues API)
  ⟨"GET", repoPath (lits "/issues/comments"), "pr:comment_list_all"⟩,
  ⟨"GET", repoPath (lits "/issues/" ++ numSeg "issue_number" ++ lits "/comments"), "pr:comment_list"⟩,
  ⟨"GET", repoPath (lits "/issues/comments/" ++ numSeg "comment_id"), "pr:comment_get"⟩,
  ⟨"POST", repoPath (lits "/issues/" ++ numSeg "issue_number" ++ lits "/comments"), "pr:comment_create"⟩,
  ⟨"PATCH", repoPath (lits "/issues/comments/" ++ numSeg "comment_id"), "pr:comment_update"⟩,
  ⟨"DELETE", repoPath (lits "/issues/comments/" ++ numSeg "comment_id"), "pr:comment_delete"⟩,
  -- review comments
  ⟨"GET", repoPath (lits "/pulls/comments"), "pr:review_comment_list_all"⟩,
  ⟨"GET", repoPath (lits "/pulls/" ++ numSeg "pull_number" ++ lits "/comments"), "pr:review_comment_list"⟩,
  ⟨"GET", repoPath (lits "/pulls/comments/" ++ numSeg "comment_id"), "pr:review_comment_get"⟩,
  ⟨"POST", repoPath (lits "/pulls/" ++ numSeg "pull_number" ++ lits "/comments"), "pr:review_comment_create"⟩,
  ⟨"PATCH", repoPath (lits "/pulls/comments/" ++ numSeg "comment_id"), "pr:review_comment_update"⟩,
  ⟨"DELETE", repoPath (lits "/pulls/comments/" ++ numSeg "comment_id"), "pr:review_comment_delete"⟩,
  ⟨"POST", repoPath (lits "/pulls/" ++ numSeg "pull_number" ++ lits "/comments/" ++ numSeg "comment_id" ++ lits "/replies"), "pr:review_comment_reply"⟩,
  -- reviews
  ⟨"GET", repoPath (lits "/pulls/" ++ numSeg "pull_number" ++ lits "/reviews"), "pr:review_list"⟩,
  ⟨"GET", repoPath (lits "/pulls/" ++ numSeg "pull_number" ++ lits "/reviews/" ++ numSeg "review_id"), "pr:review_get"⟩,
  ⟨"POST", repoPath (lits "/pulls/" ++ numSeg "pull_number" ++ lits "/reviews"), "pr:review_PARAM_BRANCH"⟩,
  ⟨"PUT", repoPath (lits "/pulls/" ++ numSeg "pull_number" ++ lits "/reviews/" ++ numSeg "review_id"), "pr:review_update"⟩,
  ⟨"DELETE", repoPath (lits "/pulls/" ++ numSeg "pull_number" ++ lits "/reviews/" ++ numSeg "review_id"), "pr:review_delete"⟩,
  ⟨"GET", repoPath (lits "/pulls/" ++ numSeg "pull_number" ++ lits "/reviews/" ++ numSeg "review_id" ++ lits "/comments"), "pr:review_comments"⟩,
  ⟨"PUT", repoPath (lits "/pulls/" ++ numSeg "pull_number" ++ lits "/reviews/" ++ numSeg "review_id" ++ lits "/dismissals"), "pr:review_dismiss"⟩,
  ⟨"POST", repoPath (lits "/pulls/" ++ numSeg "pull_number" ++ lits "/reviews/" ++ numSeg "review_id" ++ lits "/events"), "pr:review_submit_PARAM_BRANCH"⟩,
  -- review requests
  ⟨"GET", repoPath (lits "/pulls/" ++ numSeg "pull_number" ++ lits "/requested_reviewers"), "pr:reviewer_list"⟩,
  ⟨"POST", repoPath (lits "/pulls/" ++ numSeg "pull_number" ++ lits "/requested_reviewers"), "pr:reviewer_request"⟩,
  ⟨"DELETE", repoPath (lits "/pulls/" ++ numSeg "pull_number" ++ lits "/requested_reviewers"), "pr:reviewer_remove"⟩]

/-- Common prefix `/git/(?P<owner>[^/]+)/(?P<repo>[^/]+)` of the git smart
HTTP patterns, with a literal suffix (starting with the escaped `\.git`). -/
def gitPath (suffix : String) : List RTok :=
  lits "/git/" ++ seg "owner" ++ lits "/" ++ seg "repo" ++ lits suffix

/-- The ordered git smart HTTP endpoint table. -/
def GIT_ENDPOINT_ACTIONS : List EndpointEntry := [
  ⟨"GET", gitPath ".git/info/refs", "git:read"⟩,
  ⟨"POST", gitPath ".git/git-upload-pack", "git:read"⟩,
  ⟨"POST", gitPath ".git/git-receive-pack", "git:write"⟩]

/-! ## Endpoint matching (`match_endpoint` and `match_git_endpoint`,
`src/fgp/core/policy.py` lines 419-443; `src/main.py` lines 450-482 is
textually identical) -/

/-- The scan loop of `match_endpoint`: first row whose method equals the
request method and whose anchored pattern matches the path wins. -/
def matchScan (m p : String) : List EndpointEntry → Option String × List (String × String)
  | [] => (none, [])
  | e :: rest =>
    if m ≠ e.method then matchScan m p rest
    else
      match rmatch e.pattern p.data with
      | some caps => (some e.action, caps)
      | none => matchScan m p rest

/-- Shallow embedding of `match_endpoint(method, path)`. -/
def match_endpoint (method path : String) : Option String × List (String × String) :=
  matchScan method path ENDPOINT_ACTIONS

/-- Whether one table row matches a request: the method is equal and the
anchored pattern matches the path. -/
def entryMatches (m p : String) (e : EndpointEntry) : Bool :=
  m = e.method && (rmatch e.pattern p.data).isSome

/-- The scan loop of `match_git_endpoint`: as `matchScan`, except that when
the matched path ends in `/info/refs` the action is chosen by searching the
query string for `service=git-receive-pack`. -/
def matchGitScan (m p q : String) : List EndpointEntry → Option String × List (String × String)
  | [] => (none, [])
  | e :: rest =>
    if m ≠ e.method then matchGitScan m p q rest
    else
      match rmatch e.pattern p.data with
      | some caps =>
        if pyEndsWith p "/info/refs" then
          if pyInStr "service=git-receive-pack" q then (some "git:write", caps)
          else (some "git:read", caps)
        else (some e.action, caps)
      | none => matchGitScan m p q rest

/-- Shallow embedding of `match_git_endpoint(method, path, query)`. -/
def match_git_endpoint (method path query : String) :
    Option String × List (String × String) :=
  matchGitScan method path query GIT_ENDPOINT_ACTIONS

/-! ## The git branch of the two orchestrators

`handle_git_request` exists in both sources.  `src/main.py` lines 577-627
classifies, evaluates the policy and only then forwards;
`src/fgp/handler.py` lines 239-282 discards the classified action and never
consults the rules.  Both are embedded up to the hand-off to the upstream
forwarder: the upstream call, response streaming and upstream error mapping
are outside the core, so the outcome is either an error response produced
before forwarding, or `forward` carrying the repository and the credential
that is attached upstream. -/

/-- Outcome of the git branch before the upstream call. -/
inductive GitOutcome where
  | error (code : Nat) (message : String) : GitOutcome
  | forward (owner repo pat : String) : GitOutcome
deriving DecidableEq

/-- Shallow embedding of `GitHubProxyHandler.handle_git_request` of
`src/fgp/handler.py` (lines 239-282): the action returned by
`match_git_endpoint` is bound to `_` and dropped; no policy evaluation
happens.  `groups.get("owner")` yielding `None` is modelled by the default
`""`, which the `if not owner or not repo` guard treats the same way. -/
def fgp_handle_git_request (method path query : String) (config : Config) : GitOutcome :=
  let res := match_git_endpoint method path query
  let groups := res.2
  let owner := (groups.lookup "owner").getD ""
  let repo := (groups.lookup "repo").getD ""
  if owner = "" || repo = "" then
    .error 400 "Could not determine repository from git path"
  else
    let full_repo := owner ++ "/" ++ repo
    let pat := select_pat full_repo config
    if pat = "" then
      .error 403 ("No PAT configured for repository: " ++ full_repo)
    else
      .forward owner repo pat

/-- Shallow embedding of `GitHubProxyHandler.handle_git_request` of
`src/main.py` (lines 577-627): classification miss is a 403, then the
policy verdict gates the forward, which uses the classic PAT. -/
def main_handle_git_request (method path query : String) (config : Config) : GitOutcome :=
  match match_git_endpoint method path query with
  | (none, _) => .error 403 ("Git endpoint not allowed: " ++ method ++ " " ++ path)
  | (some action, groups) =>
    let owner := (groups.lookup "owner").getD ""
    let repo := (groups.lookup "repo").getD ""
    if owner = "" || repo = "" then
      .error 400 "Could not determine repository"
    else
      let full_repo := owner ++ "/" ++ repo
      let verdict := main_evaluate_policy action full_repo config.rules
      if !verdict.1 then
        .error 403 verdict.2
      else
        .forward owner repo config.classic_pat

/-! ## Helper lemmas about the matcher -/

theorem rmatch_nil (xs : List Char) :
    rmatch [] xs = if xs.isEmpty then some [] else none := rfl

theorem rmatch_lit_nil (c : Char) (ts : List RTok) :
    rmatch (RTok.lit c :: ts) [] = none := rfl

theorem rmatch_lit_cons (c : Char) (ts : List RTok) (x : Char) (xs2 : List Char) :
    rmatch (RTok.lit c :: ts) (x :: xs2) =
      (if x = c then rmatch ts xs2 else none) := rfl

theorem rmatch_grp (name : String) (cls : CharCls) (needOne : Bool) (ts : List RTok)
    (xs : List Char) :
    rmatch (RTok.grp name cls needOne :: ts) xs =
      (splitsDesc cls xs).findSome? (fun pr =>
        if needOne && pr.1.isEmpty then none
        else (rmatch ts pr.2).map (fun caps => (name, String.mk pr.1) :: caps)) := rfl

theorem rmatch_lits_eq {cs xs : List Char} {caps : List (String × String)}
    (h : rmatch (cs.map RTok.lit) xs = some caps) : xs = cs := by
  induction cs generalizing xs with
  | nil =>
    simp only [List.map_nil, rmatch_nil] at h
    cases xs with
    | nil => rfl
    | cons x t => simp at h
  | cons c cs ih =>
    rw [List.map_cons] at h
    cases xs with
    | nil => rw [rmatch_lit_nil] at h; exact Option.noConfusion h
    | cons x t =>
      rw [rmatch_lit_cons] at h
      by_cases hx : x = c
      · subst hx
        rw [if_pos rfl] at h
        rw [ih h]
      · rw [if_neg hx] at h
        exact Option.noConfusion h

theorem rmatch_append_lits_suffix {ts : List RTok} {cs xs : List Char}
    {caps : List (String × String)}
    (h : rmatch (ts ++ cs.map RTok.lit) xs = some caps) : cs <:+ xs := by
  induction ts generalizing xs caps with
  | nil =>
    rw [List.nil_append] at h
    rw [rmatch_lits_eq h]
  | cons tok ts ih =>
    cases tok with
    | lit c =>
      rw [List.cons_append] at h
      cases xs with
      | nil => rw [rmatch_lit_nil] at h; exact Option.noConfusion h
      | cons x t =>
        rw [rmatch_lit_cons] at h
        by_cases hx : x = c
        · rw [if_pos hx] at h
          exact (ih h).trans (List.suffix_cons x t)
        · rw [if_neg hx] at h
          exact Option.noConfusion h
    | grp name cls needOne =>
      rw [List.cons_append, rmatch_grp] at h
      obtain ⟨pr, hmem, hpr⟩ := List.exists_of_findSome?_eq_some h
      by_cases hcond : (needOne && pr.1.isEmpty) = true
      · rw [if_pos hcond] at hpr
        exact Option.noConfusion hpr
      · rw [if_neg hcond] at hpr
        obtain ⟨caps2, hc2, _⟩ := Option.map_eq_some'.mp hpr
        have hsuf : cs <:+ pr.2 := ih hc2
        simp only [splitsDesc, List.mem_map] at hmem
        obtain ⟨k, _, hpr2⟩ := hmem
        rw [← hpr2] at hsuf
        exact List.IsSuffix.trans hsuf (List.drop_suffix k xs)

theorem pyEndsWith_iff {p t : String} : pyEndsWith p t = true ↔ t.data <:+ p.data := by
  simp [pyEndsWith]

theorem not_suffix_of_suffix_short {s t xs : List Char} (hs : s <:+ xs)
    (hlen : t.length ≤ s.length) (hnot : ¬ t <:+ s) : ¬ t <:+ xs := by
  intro ht
  rcases List.suffix_or_suffix_of_suffix ht hs with h | h
  · exact hnot h
  · have heq : s = t := h.eq_of_length (le_antisymm h.length_le hlen)
    exact hnot (by rw [heq])

theorem gitPath_eq (s : String) :
    gitPath s = (lits "/git/" ++ seg "owner" ++ lits "/" ++ seg "repo") ++ s.data.map RTok.lit := by
  simp [gitPath, lits, List.append_assoc]

theorem matchScan_none {m p : String} {table : List EndpointEntry}
    (h : ∀ e ∈ table, entryMatches m p e = false) :
    matchScan m p table = (none, []) := by
  induction table with
  | nil => rfl
  | cons e rest ih =>
    have he := h e (List.mem_cons_self e rest)
    have ihr := ih (fun e2 h2 => h e2 (List.mem_cons_of_mem e h2))
    by_cases hm : m = e.method
    · cases hr : rmatch e.pattern p.data with
      | some caps => simp [entryMatches, hm, hr] at he
      | none =>
        simp only [matchScan]
        rw [if_neg (by simp [hm]), hr]
        exact ihr
    · simp only [matchScan]
      rw [if_pos hm]
      exact ihr

theorem matchScan_first {m p : String} {table : List EndpointEntry} (i : Nat)
    (hi : i < table.length)
    (hb : ∀ j (hj : j < i), entryMatches m p (table.get ⟨j, hj.trans hi⟩) = false)
    (hmt : entryMatches m p (table.get ⟨i, hi⟩) = true) :
    ∃ caps, rmatch (table.get ⟨i, hi⟩).pattern p.data = some caps ∧
      matchScan m p table = (some (table.get ⟨i, hi⟩).action, caps) := by
  induction table generalizing i with
  | nil => exact absurd hi (by simp)
  | cons e rest ih =>
    cases i with
    | zero =>
      have hmt2 : entryMatches m p e = true := hmt
      have hmm : m = e.method := by
        simp [entryMatches] at hmt2
        exact hmt2.1
      cases hr : rmatch e.pattern p.data with
      | none => simp [entryMatches, hr] at hmt2
      | some caps =>
        refine ⟨caps, hr, ?_⟩
        simp only [matchScan]
        rw [if_neg (by simp [hmm]), hr]
        rfl
    | succ i2 =>
      have h0 : entryMatches m p e = false := hb 0 (Nat.succ_pos i2)
      have hi2 : i2 < rest.length := Nat.lt_of_succ_lt_succ hi
      obtain ⟨caps, hc, hs⟩ := ih i2 hi2
        (fun j hj => hb (j + 1) (Nat.succ_lt_succ hj)) hmt
      refine ⟨caps, hc, ?_⟩
      cases hre : rmatch e.pattern p.data with
      | some caps2 =>
        have hmm : ¬ m = e.method := by
          simp [entryMatches, hre] at h0
          exact h0
        simp only [matchScan]
        rw [if_pos hmm]
        exact hs
      | none =>
        by_cases hmm : m = e.method
        · simp only [matchScan]
          rw [if_neg (by simp [hmm]), hre]
          exact hs
        · simp only [matchScan]
          rw [if_pos hmm]
          exact hs

/-! ## Helper lemmas about the policy evaluator and the credential selector -/

theorem evaluateAux_deny_wins (expand : String → List String) (action repo : String)
    (rules : List Rule) :
    ∀ (b : Bool),
      (∃ r ∈ rules, pyLower r.effect = "deny" ∧ ruleActionMatch expand action r = true ∧
        ruleRepoMatch repo r = true) →
      (evaluateAux expand action repo rules b).1 = false ∧
      ∃ r ∈ rules, pyLower r.effect = "deny" ∧ ruleActionMatch expand action r = true ∧
        ruleRepoMatch repo r = true ∧
        (evaluateAux expand action repo rules b).2 = "Denied by rule: " ++ ruleRepr r := by
  induction rules with
  | nil =>
    intro b h
    simp at h
  | cons r rest ih =>
    intro b h
    by_cases ha : ruleActionMatch expand action r = true
    · by_cases hr : ruleRepoMatch repo r = true
      · by_cases hd : pyLower r.effect = "deny"
        · refine ⟨by simp [evaluateAux, ha, hr, hd], r, List.mem_cons_self r rest, hd, ha, hr, ?_⟩
          simp [evaluateAux, ha, hr, hd]
        · obtain ⟨r0, hmem, h0d, h0a, h0r⟩ := h
          have hmem2 : r0 ∈ rest := by
            rcases List.mem_cons.mp hmem with h1 | h1
            · exact absurd (h1 ▸ h0d) hd
            · exact h1
          by_cases hal : pyLower r.effect = "allow"
          · have hrec := ih true ⟨r0, hmem2, h0d, h0a, h0r⟩
            refine ⟨?_, ?_⟩
            · simpa [evaluateAux, ha, hr, hd, hal] using hrec.1
            · obtain ⟨r1, hm1, hd1, ha1, hr1, hs1⟩ := hrec.2
              exact ⟨r1, List.mem_cons_of_mem r hm1, hd1, ha1, hr1,
                by simpa [evaluateAux, ha, hr, hd, hal] using hs1⟩
          · have hrec := ih b ⟨r0, hmem2, h0d, h0a, h0r⟩
            refine ⟨?_, ?_⟩
            · simpa [evaluateAux, ha, hr, hd, hal] using hrec.1
            · obtain ⟨r1, hm1, hd1, ha1, hr1, hs1⟩ := hrec.2
              exact ⟨r1, List.mem_cons_of_mem r hm1, hd1, ha1, hr1,
                by simpa [evaluateAux, ha, hr, hd, hal] using hs1⟩
      · obtain ⟨r0, hmem, h0d, h0a, h0r⟩ := h
        have hmem2 : r0 ∈ rest := by
          rcases List.mem_cons.mp hmem with h1 | h1
          · exact absurd (h1 ▸ h0r) hr
          · exact h1
        have hrec := ih b ⟨r0, hmem2, h0d, h0a, h0r⟩
        refine ⟨?_, ?_⟩
        · simpa [evaluateAux, ha, hr] using hrec.1
        · obtain ⟨r1, hm1, hd1, ha1, hr1, hs1⟩ := hrec.2
          exact ⟨r1, List.mem_cons_of_mem r hm1, hd1, ha1, hr1,
            by simpa [evaluateAux, ha, hr] using hs1⟩
    · obtain ⟨r0, hmem, h0d, h0a, h0r⟩ := h
      have hmem2 : r0 ∈ rest := by
        rcases List.mem_cons.mp hmem with h1 | h1
        · exact absurd (h1 ▸ h0a) ha
        · exact h1
      have hrec := ih b ⟨r0, hmem2, h0d, h0a, h0r⟩
      refine ⟨?_, ?_⟩
      · simpa [evaluateAux, ha] using hrec.1
      · obtain ⟨r1, hm1, hd1, ha1, hr1, hs1⟩ := hrec.2
        exact ⟨r1, List.mem_cons_of_mem r hm1, hd1, ha1, hr1,
          by simpa [evaluateAux, ha] using hs1⟩

theorem evaluateAux_no_match (expand : String → List String) (action repo : String)
    (rules : List Rule) :
    ∀ (b : Bool),
      (∀ r ∈ rules, ¬(ruleActionMatch expand action r = true ∧ ruleRepoMatch repo r = true)) →
      evaluateAux expand action repo rules b =
        (if b then (true, "Allowed")
         else (false, "No matching allow rule for " ++ action ++ " on " ++ repo)) := by
  induction rules with
  | nil =>
    intro b _
    cases b <;> rfl
  | cons r rest ih =>
    intro b h
    have hrest := fun r2 h2 => h r2 (List.mem_cons_of_mem r h2)
    have hr0 := h r (List.mem_cons_self r rest)
    by_cases ha : ruleActionMatch expand action r = true
    · have hrr : ¬ ruleRepoMatch repo r = true := fun hx => hr0 ⟨ha, hx⟩
      simpa [evaluateAux, ha, hrr] using ih b hrest
    · simpa [evaluateAux, ha] using ih b hrest

theorem selectPatAux_find (repo classic : String) (entries : List FgPat) :
    selectPatAux repo classic entries =
      (match entries.find? (fun e => e.repos.any (fun pt => expand_repo_pattern pt repo)) with
       | some e => e.pat
       | none => classic) := by
  induction entries with
  | nil => rfl
  | cons e rest ih =>
    by_cases hc : e.repos.any (fun pt => expand_repo_pattern pt repo) = true
    · simp [selectPatAux, List.find?, hc]
    · simp only [selectPatAux, List.find?]
      rw [if_neg hc]
      simp only [Bool.not_eq_true] at hc
      rw [hc]
      exact ih

theorem rmatch_gitPath_suffix {s : String} {xs : List Char}
    {caps : List (String × String)}
    (h : rmatch (gitPath s) xs = some caps) : s.data <:+ xs := by
  rw [gitPath_eq] at h
  exact rmatch_append_lits_suffix h

/-! ## Claim theorems -/

/-- C1 (code-bug evidence): with a ruleset allowing only `git:read`
everywhere, a push (`git-receive-pack`) classifies as `git:write` and the
policy denies it; `src/main.py` responds 403 with the reason and does not
forward, but the `src/fgp/handler.py` git branch never calls
`evaluate_policy` and forwards the request upstream with the selected
credential. -/
theorem fgp_git_branch_skips_policy :
    (match_git_endpoint "POST" "/git/a/b.git/git-receive-pack" "").1 = some "git:write" ∧
    (evaluate_policy "git:write" "a/b" [⟨"allow", ["git:read"], ["*"]⟩]).1 = false ∧
    (main_evaluate_policy "git:write" "a/b" [⟨"allow", ["git:read"], ["*"]⟩]).1 = false ∧
    main_handle_git_request "POST" "/git/a/b.git/git-receive-pack" ""
      ⟨"T0", [], none, [⟨"allow", ["git:read"], ["*"]⟩]⟩ =
      .error 403 "No matching allow rule for git:write on a/b" ∧
    fgp_handle_git_request "POST" "/git/a/b.git/git-receive-pack" ""
      ⟨"T0", [], none, [⟨"allow", ["git:read"], ["*"]⟩]⟩ = .forward "a" "b" "T0" := by
  decide

/-- C2: deny wins.  If some rule of the list has effect `deny`, an action
pattern whose expansion contains the action and a repo pattern matching the
repo, then `evaluate_policy` returns `false`, whatever allow rules appear
before or after it, and the reason identifies a matching deny rule. -/
theorem evaluate_policy_deny_wins (action repo : String) (rules : List Rule)
    (h : ∃ r ∈ rules, pyLower r.effect = "deny" ∧
      ruleActionMatch expand_action_pattern action r = true ∧ ruleRepoMatch repo r = true) :
    (evaluate_policy action repo rules).1 = false ∧
    ∃ r ∈ rules, pyLower r.effect = "deny" ∧
      ruleActionMatch expand_action_pattern action r = true ∧ ruleRepoMatch repo r = true ∧
      (evaluate_policy action repo rules).2 = "Denied by rule: " ++ ruleRepr r :=
  evaluateAux_deny_wins expand_action_pattern action repo rules false h

/-- Witness for C2: an allow-everything rule before a matching deny rule. -/
theorem evaluate_policy_deny_wins_witness :
    (evaluate_policy "code:read" "x/y"
      [⟨"allow", ["*"], ["*"]⟩, ⟨"deny", ["code:read"], ["*"]⟩]).1 = false :=
  (evaluate_policy_deny_wins "code:read" "x/y"
    [⟨"allow", ["*"], ["*"]⟩, ⟨"deny", ["code:read"], ["*"]⟩]
    ⟨⟨"deny", ["code:read"], ["*"]⟩, by decide, by decide, by decide, by decide⟩).1

/-- C3 (code-bug evidence): `resolve_param_branch` raises `AttributeError`
for refinement placeholders when the body is valid JSON that is not an
object (list, number or string), because `.get` is called on the parsed
value; the claim that it never raises fails on these bodies. -/
theorem resolve_param_branch_raises_on_nondict :
    resolve_param_branch "pr:create_PARAM_BRANCH" (.ok (.arr [])) = .error .attributeError ∧
    resolve_param_branch "pr:merge_PARAM_BRANCH" (.ok (.num 5)) = .error .attributeError ∧
    resolve_param_branch "pr:review_PARAM_BRANCH" (.ok (.str "x")) = .error .attributeError := by
  decide

/-- C4: end-to-end deny-overrides-allow scenario.  `PUT
/repos/a/b/pulls/1/merge` classifies to the merge placeholder, the body
`merge_method: squash` refines it to `pr:merge_squash`, that primitive is in
the `pr:merge` bundle expansion, and evaluation under allow-all plus
deny-`pr:merge` returns a denial naming the deny rule. -/
theorem deny_overrides_allow_scenario :
    match_endpoint "PUT" "/repos/a/b/pulls/1/merge" =
      (some "pr:merge_PARAM_BRANCH", [("owner", "a"), ("repo", "b"), ("pull_number", "1")]) ∧
    resolve_param_branch "pr:merge_PARAM_BRANCH"
      (.ok (.obj [("merge_method", .str "squash")])) = .ok "pr:merge_squash" ∧
    ((BUNDLE_EXPANSION.lookup "pr:merge").getD []).contains "pr:merge_squash" = true ∧
    evaluate_policy "pr:merge_squash" "a/b"
      [⟨"allow", ["*"], ["*"]⟩, ⟨"deny", ["pr:merge"], ["*"]⟩] =
      (false, "Denied by rule: " ++ ruleRepr ⟨"deny", ["pr:merge"], ["*"]⟩) := by
  decide

/-- C5: implicit default deny.  When no rule has both a matching action
pattern and a matching repo pattern, `evaluate_policy` returns `false` with
the no-matching-allow-rule reason. -/
theorem evaluate_policy_implicit_deny (action repo : String) (rules : List Rule)
    (h : ∀ r ∈ rules, ¬(ruleActionMatch expand_action_pattern action r = true ∧
      ruleRepoMatch repo r = true)) :
    evaluate_policy action repo rules =
      (false, "No matching allow rule for " ++ action ++ " on " ++ repo) := by
  have := evaluateAux_no_match expand_action_pattern action repo rules false h
  simpa [evaluate_policy] using this

/-- Witness for C5: a ruleset whose only rule matches a different action. -/
theorem evaluate_policy_implicit_deny_witness :
    evaluate_policy "code:write" "a/b" [⟨"allow", ["issues:read"], ["*"]⟩] =
      (false, "No matching allow rule for code:write on a/b") :=
  evaluate_policy_implicit_deny "code:write" "a/b" [⟨"allow", ["issues:read"], ["*"]⟩]
    (by decide)

/-- C6 counterexample: the code tests Python truthiness of the `draft`
field, not equality with the boolean `true`; with body `draft: 1` the claim
predicts `pr:create` but the code returns `pr:create_draft`. -/
theorem pr_create_truthy_counterexample :
    resolve_param_branch "pr:create_PARAM_BRANCH" (.ok (.obj [("draft", .num 1)])) =
      .ok "pr:create_draft" ∧
    ¬ resolve_param_branch "pr:create_PARAM_BRANCH" (.ok (.obj [("draft", .num 1)])) =
      .ok "pr:create" := by
  decide

/-- C6 amended: for every body whose parse outcome is absent, failed, or a
JSON object, `resolve_param_branch("pr:create_PARAM_BRANCH", body)` returns
`pr:create_draft` exactly when the `draft` field of the object is truthy in
the Python sense (`true`, a nonzero number, or a nonempty string, array or
object), and `pr:create` otherwise. -/
theorem pr_create_refinement_truthy (b : BodyParse) (kvs : List (String × Json))
    (h : bodyJson b = .obj kvs) :
    resolve_param_branch "pr:create_PARAM_BRANCH" b =
      .ok (if truthy ((kvs.reverse.lookup "draft").getD (.bool false))
           then "pr:create_draft" else "pr:create") := by
  have hcong : resolve_param_branch "pr:create_PARAM_BRANCH" b =
      resolve_param_branch "pr:create_PARAM_BRANCH" (.ok (bodyJson b)) := by
    cases b <;> rfl
  rw [hcong, h]
  have step : resolve_param_branch "pr:create_PARAM_BRANCH" (.ok (.obj kvs)) =
      (if truthy ((kvs.reverse.lookup "draft").getD (.bool false))
       then Except.ok "pr:create_draft" else Except.ok "pr:create") := rfl
  rw [step]
  split <;> rfl

/-- Witness for C6 amended: a body with boolean `draft: true`. -/
theorem pr_create_refinement_truthy_witness :
    resolve_param_branch "pr:create_PARAM_BRANCH" (.ok (.obj [("draft", .bool true)])) =
      .ok "pr:create_draft" := by
  rw [pr_create_refinement_truthy (.ok (.obj [("draft", .bool true)]))
    [("draft", .bool true)] rfl]
  decide

/-- C7: `match_endpoint` is first-match over the declaration-ordered table:
it returns `(none, [])` when no row matches, and the action plus captures of
the first matching row otherwise; in particular `GET
/repos/o/r/issues/5/comments` is matched by both the `issues:read` row and
the later `pr:comment_list` row and yields `issues:read`. -/
theorem match_endpoint_first_match :
    (∀ (m p : String),
      (∀ e ∈ ENDPOINT_ACTIONS, entryMatches m p e = false) →
      match_endpoint m p = (none, [])) ∧
    (∀ (m p : String) (i : Nat) (hi : i < ENDPOINT_ACTIONS.length),
      (∀ j (hj : j < i), entryMatches m p (ENDPOINT_ACTIONS.get ⟨j, hj.trans hi⟩) = false) →
      entryMatches m p (ENDPOINT_ACTIONS.get ⟨i, hi⟩) = true →
      ∃ caps, rmatch (ENDPOINT_ACTIONS.get ⟨i, hi⟩).pattern p.data = some caps ∧
        match_endpoint m p = (some (ENDPOINT_ACTIONS.get ⟨i, hi⟩).action, caps)) ∧
    match_endpoint "GET" "/repos/o/r/issues/5/comments" =
      (some "issues:read", [("owner", "o"), ("repo", "r"), ("issue_number", "5")]) ∧
    (ENDPOINT_ACTIONS.filter (entryMatches "GET" "/repos/o/r/issues/5/comments")).map
        EndpointEntry.action = ["issues:read", "pr:comment_list"] := by
  refine ⟨?_, ?_, by decide, by decide⟩
  · intro m p h
    exact matchScan_none h
  · intro m p i hi hb hmt
    exact matchScan_first i hi hb hmt

/-- Witness for C7: the first-match branch applied at row 0 of the table. -/
theorem match_endpoint_first_match_witness :
    match_endpoint "GET" "/repos/a/b" =
      (some "metadata:read", [("owner", "a"), ("repo", "b")]) := by
  obtain ⟨caps, hc, hm⟩ := match_endpoint_first_match.2.1 "GET" "/repos/a/b" 0 (by decide)
    (fun j hj => absurd hj (Nat.not_lt_zero j)) (by decide)
  have hcaps : caps = [("owner", "a"), ("repo", "b")] :=
    Option.some.inj (hc.symm.trans (by decide))
  rw [hm, hcaps]
  decide

/-- C8: git classification.  A `GET` on a path matched by the `info/refs`
pattern yields `git:write` exactly when the query contains
`service=git-receive-pack` and `git:read` otherwise; paths matched by the
`git-upload-pack` and `git-receive-pack` rows yield the table action for
every query. -/
theorem match_git_endpoint_query_classification :
    (∀ (p q : String) (caps : List (String × String)),
      rmatch (gitPath ".git/info/refs") p.data = some caps →
      match_git_endpoint "GET" p q =
        (some (if pyInStr "service=git-receive-pack" q then "git:write" else "git:read"),
          caps)) ∧
    (∀ (p q : String) (caps : List (String × String)),
      rmatch (gitPath ".git/git-upload-pack") p.data = some caps →
      match_git_endpoint "POST" p q = (some "git:read", caps)) ∧
    (∀ (p q : String) (caps : List (String × String)),
      rmatch (gitPath ".git/git-receive-pack") p.data = some caps →
      match_git_endpoint "POST" p q = (some "git:write", caps)) := by
  refine ⟨?_, ?_, ?_⟩
  · intro p q caps h
    have hends : pyEndsWith p "/info/refs" = true :=
      pyEndsWith_iff.mpr (List.IsSuffix.trans (by decide) (rmatch_gitPath_suffix h))
    simp [match_git_endpoint, GIT_ENDPOINT_ACTIONS, matchGitScan, h, hends]
    by_cases hq : pyInStr "service=git-receive-pack" q = true <;> simp [hq]
  · intro p q caps h
    have hsuf := rmatch_gitPath_suffix h
    have hne : pyEndsWith p "/info/refs" = false := by
      cases hpe : pyEndsWith p "/info/refs" with
      | false => rfl
      | true =>
        exact absurd (pyEndsWith_iff.mp hpe)
          (not_suffix_of_suffix_short hsuf (by decide) (by decide))
    simp [match_git_endpoint, GIT_ENDPOINT_ACTIONS, matchGitScan, h, hne]
  · intro p q caps h
    have hsuf := rmatch_gitPath_suffix h
    have hne : pyEndsWith p "/info/refs" = false := by
      cases hpe : pyEndsWith p "/info/refs" with
      | false => rfl
      | true =>
        exact absurd (pyEndsWith_iff.mp hpe)
          (not_suffix_of_suffix_short hsuf (by decide) (by decide))
    have hup : rmatch (gitPath ".git/git-upload-pack") p.data = none := by
      cases hr : rmatch (gitPath ".git/git-upload-pack") p.data with
      | none => rfl
      | some c2 =>
        exfalso
        have h1 := rmatch_gitPath_suffix hr
        rcases List.suffix_or_suffix_of_suffix h1 hsuf with hh | hh <;>
          exact absurd hh (by decide)
    simp [match_git_endpoint, GIT_ENDPOINT_ACTIONS, matchGitScan, h, hup, hne]

/-- Witness for C8: the spec scenario `GET
/git/a/b.git/info/refs?service=git-receive-pack`. -/
theorem match_git_endpoint_query_classification_witness :
    match_git_endpoint "GET" "/git/a/b.git/info/refs" "service=git-receive-pack" =
      (some "git:write", [("owner", "a"), ("repo", "b")]) := by
  rw [match_git_endpoint_query_classification.1 "/git/a/b.git/info/refs"
    "service=git-receive-pack" [("owner", "a"), ("repo", "b")] (by decide)]
  decide

/-- C9: `select_pat` returns the pat of the first fine-grained entry, in
declaration order, with a repo pattern matching the repo
(case-insensitively, via `expand_repo_pattern`), and the classic PAT when no
entry matches; the result is always one of the configured tokens. -/
theorem select_pat_first_match :
    (∀ (repo : String) (config : Config),
      select_pat repo config =
        (match config.fine_grained_pats.find?
            (fun e => e.repos.any (fun pt => expand_repo_pattern pt repo)) with
         | some e => e.pat
         | none => config.classic_pat)) ∧
    (∀ (repo : String) (config : Config),
      select_pat repo config = config.classic_pat ∨
        ∃ e ∈ config.fine_grained_pats, select_pat repo config = e.pat) := by
  constructor
  · intro repo config
    exact selectPatAux_find repo config.classic_pat config.fine_grained_pats
  · intro repo config
    have h1 := selectPatAux_find repo config.classic_pat config.fine_grained_pats
    cases hfind : config.fine_grained_pats.find?
        (fun e => e.repos.any (fun pt => expand_repo_pattern pt repo)) with
    | none =>
      left
      show selectPatAux repo config.classic_pat config.fine_grained_pats = _
      rw [h1, hfind]
    | some e =>
      right
      refine ⟨e, List.mem_of_find?_eq_some hfind, ?_⟩
      show selectPatAux repo config.classic_pat config.fine_grained_pats = _
      rw [h1, hfind]

/-- C10: per-repository credential selection never reads the modern `pats`
catalog: two configs agreeing on `classic_pat` and `fine_grained_pats` but
differing arbitrarily in `pats` (and in `rules`) select the same token for
every repo. -/
theorem select_pat_pats_noninterference (repo : String) (c1 c2 : Config)
    (h1 : c1.classic_pat = c2.classic_pat)
    (h2 : c1.fine_grained_pats = c2.fine_grained_pats) :
    select_pat repo c1 = select_pat repo c2 := by
  unfold select_pat
  rw [h1, h2]

/-- Witness for C10: adding a `pats` entry scoped to every repo does not
change the selected credential. -/
theorem select_pat_pats_noninterference_witness :
    select_pat "acme/foo" ⟨"T0", [⟨"T1", ["acme/*"]⟩], none, []⟩ =
      select_pat "acme/foo" ⟨"T0", [⟨"T1", ["acme/*"]⟩], some [⟨"T9", ["*"]⟩], []⟩ ∧
    select_pat "acme/foo" ⟨"T0", [⟨"T1", ["acme/*"]⟩], some [⟨"T9", ["*"]⟩], []⟩ = "T1" :=
  ⟨select_pat_pats_noninterference "acme/foo" _ _ rfl rfl, by decide⟩

end FGP

